import Mathlib

/-!
A verification development for the ScreenR repository.

The definitions below are a shallow embedding of the Timeline Compiler
(`src/core/assembler.ts`), the element detector's field-name inference
(`src/core/element-detector.ts`), the studio step-delete operation
(`src/app/server.ts`), and the spec's hit-test for the Interactive
Playback Engine (whose client code is not part of the source tree).

Conventions of the embedding:
- JavaScript numbers holding millisecond times and dense orders are `Nat`;
  viewport-percentage coordinates and pixel tolerances are `Rat`.
- Optional TS fields (`field?: T`) are `Option T`; a JS string-truthiness
  test (`if (s)`) is `jsTruthy`, which is false for the empty string.
- The effectful parts of `assembleProject` (uuid generation, `new Date()`,
  `fs.existsSync` on the audio path, file copies) are passed in as explicit
  parameters `projectId`, `createdAt`, `audioFileExists`; the function then
  computes the `Project` value exactly as the source does.
-/

namespace ScreenR

/-- `StepAction` from `src/types/project.ts`. -/
inductive StepAction
  | navigate
  | click
  | type
  | wait
  | scroll
  | hover
  | screenshot
deriving DecidableEq

/-- `HighlightEntry['type']` from `src/types/project.ts`. -/
inductive HighlightType
  | circle
  | rectangle
  | arrow
  | pulse
deriving DecidableEq

/-- The inline `highlight` object of `AutomationStep`. -/
structure HighlightHint where
  x : Rat
  y : Rat
  type : HighlightType
deriving DecidableEq

/-- `AutomationStep` from `src/types/project.ts`. -/
structure AutomationStep where
  id : String
  action : StepAction
  selector : Option String := Option.none
  value : Option String := Option.none
  description : String
  narration : String
  waitAfter : Option Nat := Option.none
  waitForSelector : Option String := Option.none
  highlight : Option HighlightHint := Option.none
deriving DecidableEq

/-- `StepTimestamp` from `src/core/browser.ts`. -/
structure StepTimestamp where
  stepId : String
  startTime : Nat
  endTime : Nat
deriving DecidableEq

/-- `SubtitleEntry` from `src/types/project.ts`; the source field `end`
is a Lean keyword, written `«end»`. -/
structure SubtitleEntry where
  id : String
  start : Nat
  «end» : Nat
  text : String
deriving DecidableEq

/-- `ElementInfo` from `src/types/project.ts`. -/
structure ElementInfo where
  tagName : String
  fieldName : String
  fieldType : Option String := Option.none
  action : String
  value : Option String := Option.none
  selector : String
deriving DecidableEq

/-- `TooltipTranslation` from `src/types/project.ts`. -/
structure TooltipTranslation where
  fieldName : String
  actionDescription : String
deriving DecidableEq

/-- `HighlightEntry` from `src/types/project.ts`; the `Record<string, TooltipTranslation>`
is an association list. -/
structure HighlightEntry where
  id : String
  start : Nat
  «end» : Nat
  x : Rat
  y : Rat
  width : Option Rat := Option.none
  height : Option Rat := Option.none
  type : HighlightType
  color : Option String := Option.none
  label : Option String := Option.none
  elementInfo : Option ElementInfo := Option.none
  translations : Option (List (String × TooltipTranslation)) := Option.none
  screenshotFile : Option String := Option.none
deriving DecidableEq

/-- `QuestionOption` from `src/types/project.ts`. -/
structure QuestionOption where
  id : String
  text : String
deriving DecidableEq

/-- `QuestionEntry['type']` from `src/types/project.ts`. -/
inductive QuestionType
  | multipleChoice
  | trueFalse
  | clickTarget
deriving DecidableEq

/-- The inline `feedback` object of `QuestionEntry`. -/
structure QuestionFeedback where
  correct : String
  incorrect : String
deriving DecidableEq

/-- `Omit<QuestionEntry, 'id'>`: a question as supplied to the assembler.
`correctAnswer : string | number` is a sum. The source field `at` is a Lean
keyword, written `«at»`. -/
structure QuestionInput where
  «at» : Nat
  pauseVideo : Bool
  question : String
  type : QuestionType
  options : Option (List QuestionOption) := Option.none
  correctAnswer : String ⊕ Nat
  feedback : Option QuestionFeedback := Option.none
deriving DecidableEq

/-- `QuestionEntry` from `src/types/project.ts`. -/
structure QuestionEntry where
  id : String
  «at» : Nat
  pauseVideo : Bool
  question : String
  type : QuestionType
  options : Option (List QuestionOption) := Option.none
  correctAnswer : String ⊕ Nat
  feedback : Option QuestionFeedback := Option.none
deriving DecidableEq

/-- `ClickTarget['highlightType']` from `src/types/project.ts`. -/
inductive TargetHighlightType
  | pulse
  | glow
  | arrow
  | none
deriving DecidableEq

/-- `ClickTarget` from `src/types/project.ts`. -/
structure ClickTarget where
  x : Rat
  y : Rat
  width : Rat
  height : Rat
  highlightType : Option TargetHighlightType := Option.none
  highlightColor : Option String := Option.none
  tolerance : Option Rat := Option.none
deriving DecidableEq

/-- The `onCorrect` object of `InteractiveStep`. -/
structure OnCorrect where
  feedback : Option String := Option.none
  autoAdvance : Option Bool := Option.none
  playSegment : Option (Nat × Nat) := Option.none
deriving DecidableEq

/-- The `onIncorrect` object of `InteractiveStep`. -/
structure OnIncorrect where
  feedback : Option String := Option.none
  showHint : Option Bool := Option.none
  maxAttempts : Option Nat := Option.none
deriving DecidableEq

/-- The `scoring` object of `InteractiveStep`. -/
structure StepScoring where
  points : Nat
  timeBonus : Option Bool := Option.none
  penaltyPerWrongClick : Option Nat := Option.none
deriving DecidableEq

/-- `InteractiveStep` from `src/types/project.ts`. -/
structure InteractiveStep where
  id : String
  order : Nat
  instruction : String
  hint : Option String := Option.none
  target : ClickTarget
  onCorrect : Option OnCorrect := Option.none
  onIncorrect : Option OnIncorrect := Option.none
  scoring : Option StepScoring := Option.none
deriving DecidableEq

/-- `ChapterEntry` from `src/types/project.ts`. -/
structure ChapterEntry where
  title : String
  startTime : Nat
deriving DecidableEq

/-- `SummaryLayer['generatedBy']` from `src/types/project.ts`. -/
inductive GeneratedBy
  | ai
  | manual
deriving DecidableEq

/-- `SummaryLayer` from `src/types/project.ts`. -/
structure SummaryLayer where
  keyPoints : List String
  chapters : List ChapterEntry
  generatedBy : GeneratedBy
deriving DecidableEq

/-- `VideoLayer` from `src/types/project.ts`. -/
structure VideoLayer where
  src : String
  width : Nat
  height : Nat
deriving DecidableEq

/-- `AudioLayer` from `src/types/project.ts`. -/
structure AudioLayer where
  src : String
  volume : Rat
deriving DecidableEq

/-- `ProjectLayers` from `src/types/project.ts`. -/
structure ProjectLayers where
  video : VideoLayer
  audio : AudioLayer
  subtitles : List SubtitleEntry
  highlights : List HighlightEntry
  questions : List QuestionEntry
  summary : Option SummaryLayer := Option.none
deriving DecidableEq

/-- `ScormConfig` from `src/types/project.ts` (never set by the assembler). -/
structure ScormConfig where
  version : String
  completionThreshold : Rat
  passingScore : Option Rat := Option.none
  trackQuestions : Bool
deriving DecidableEq

/-- `Project` from `src/types/project.ts`. -/
structure Project where
  id : String
  title : String
  description : String
  targetUrl : String
  duration : Nat
  createdAt : String
  layers : ProjectLayers
  interactiveSteps : List InteractiveStep
  scorm : Option ScormConfig := Option.none
  defaultLanguage : String
  availableLanguages : List String
deriving DecidableEq

/-- `NarrationSegment` from `src/core/narration.ts` (carried in the
assembler input but not read by `assembleProject`). -/
structure NarrationSegment where
  id : String
  text : String
  audioPath : Option String := Option.none
  startTime : Nat
  duration : Nat
deriving DecidableEq

/-- `AssemblerInput` from `src/core/assembler.ts`. -/
structure AssemblerInput where
  title : String
  description : String
  targetUrl : String
  videoPath : String
  audioPath : Option String := Option.none
  steps : List AutomationStep
  timestamps : List StepTimestamp
  narrationSegments : Option (List NarrationSegment) := Option.none
  questions : Option (List QuestionInput) := Option.none
  generateSummary : Option Bool := Option.none
  autoHighlights : Option (List HighlightEntry) := Option.none
  defaultLanguage : Option String := Option.none
  availableLanguages : Option (List String) := Option.none
deriving DecidableEq

/-! ### The Timeline Compiler (`src/core/assembler.ts`) -/

/-- JavaScript string truthiness of a `string | null | undefined` value:
true exactly when present and non-empty. -/
def jsTruthy (o : Option String) : Bool :=
  match o with
  | Option.some s => s != ""
  | Option.none => false

/-- `x || d` for a JS `string | undefined` value `x`: an empty string is
falsy and also falls back to the default. -/
def strOr (o : Option String) (d : String) : String :=
  match o with
  | Option.some s => if s = "" then d else s
  | Option.none => d

/-- JavaScript `s.toLowerCase()` (for the ASCII identifiers this system
lowercases), written directly on the character list so that it evaluates
by kernel reduction. -/
def jsToLower (s : String) : String :=
  String.mk (s.data.map Char.toLower)

/-- `timestamps.find((t) => t.stepId === step.id)`. -/
def findTimestamp (timestamps : List StepTimestamp) (stepId : String) :
    Option StepTimestamp :=
  timestamps.find? (fun t => t.stepId == stepId)

/-- The subtitle record pushed by `generateSubtitles` for one step: the
step's timestamp window and its narration text. -/
def subtitleFor (step : AutomationStep) (t : StepTimestamp) : SubtitleEntry :=
  ⟨"subtitle-" ++ step.id, t.startTime, t.endTime, step.narration⟩

/-- `generateSubtitles` from `src/core/assembler.ts`: one subtitle per step
that has a matching timestamp and truthy (non-empty) narration. -/
def generateSubtitles (steps : List AutomationStep)
    (timestamps : List StepTimestamp) : List SubtitleEntry :=
  match steps with
  | [] => []
  | step :: rest =>
    match findTimestamp timestamps step.id with
    | Option.some t =>
      if step.narration ≠ "" then
        subtitleFor step t :: generateSubtitles rest timestamps
      else
        generateSubtitles rest timestamps
    | Option.none => generateSubtitles rest timestamps

/-- The highlight record pushed by `generateHighlights` for one step:
the hint's position and type, window from the step's timestamp, and the
fixed default size `width = 5`, `height = 5`. -/
def highlightFor (step : AutomationStep) (h : HighlightHint)
    (t : StepTimestamp) : HighlightEntry :=
  ⟨"highlight-" ++ step.id, t.startTime, t.endTime, h.x, h.y,
    Option.some 5, Option.some 5, h.type,
    Option.none, Option.none, Option.none, Option.none, Option.none⟩

/-- `generateHighlights` from `src/core/assembler.ts`: one highlight per
step that declares a `highlight` hint and has a matching timestamp. -/
def generateHighlights (steps : List AutomationStep)
    (timestamps : List StepTimestamp) : List HighlightEntry :=
  match steps with
  | [] => []
  | step :: rest =>
    match step.highlight with
    | Option.some h =>
      match findTimestamp timestamps step.id with
      | Option.some t => highlightFor step h t :: generateHighlights rest timestamps
      | Option.none => generateHighlights rest timestamps
    | Option.none => generateHighlights rest timestamps

/-- Chapter entry of `generateSummary`: `timestamp?.startTime || 0`. -/
def chapterFor (timestamps : List StepTimestamp) (step : AutomationStep) :
    ChapterEntry :=
  ⟨step.description, ((findTimestamp timestamps step.id).map (fun t => t.startTime)).getD 0⟩

/-- `generateSummary` from `src/core/assembler.ts`. -/
def generateSummaryLayer (steps : List AutomationStep)
    (timestamps : List StepTimestamp) : SummaryLayer :=
  ⟨(steps.filter (fun s => s.action != StepAction.wait)).map (fun s => s.description),
   (steps.filter (fun s => s.action == StepAction.navigate || s.action == StepAction.click)).map
     (chapterFor timestamps),
   GeneratedBy.ai⟩

/-- The interactive step pushed for one qualifying trace step, with the
source's fixed defaults (target size 10 × 8, tolerance 15, feedback texts,
`maxAttempts` 3, `points` 10, `penaltyPerWrongClick` 2). -/
def interactiveStepFor (step : AutomationStep) (h : HighlightHint)
    (order : Nat) : InteractiveStep :=
  ⟨"interactive-" ++ step.id,
   order,
   (if step.narration ≠ "" then step.narration else step.description),
   Option.some ("Look for the " ++ jsToLower step.description),
   ⟨h.x, h.y, 10, 8,
    Option.some (if h.type == HighlightType.pulse
      then TargetHighlightType.pulse else TargetHighlightType.glow),
    Option.none, Option.some 15⟩,
   Option.some ⟨Option.some "Great job!", Option.some true, Option.none⟩,
   Option.some ⟨Option.some "Not quite, try again.", Option.some true, Option.some 3⟩,
   Option.some ⟨10, Option.none, Option.some 2⟩⟩

/-- The loop body of `generateInteractiveSteps`, with the running
`order` counter made explicit. A step is kept exactly when its action is
`click` or `type` and it carries a highlight hint; the timestamp lookup in
the source binds an unused local and is dropped here. -/
def generateInteractiveStepsAux (steps : List AutomationStep) (order : Nat) :
    List InteractiveStep :=
  match steps with
  | [] => []
  | step :: rest =>
    if step.action == StepAction.click || step.action == StepAction.type then
      match step.highlight with
      | Option.some h => interactiveStepFor step h order :: generateInteractiveStepsAux rest (order + 1)
      | Option.none => generateInteractiveStepsAux rest order
    else
      generateInteractiveStepsAux rest order

/-- `generateInteractiveSteps` from `src/core/assembler.ts`. -/
def generateInteractiveSteps (steps : List AutomationStep)
    (timestamps : List StepTimestamp) : List InteractiveStep :=
  generateInteractiveStepsAux steps 0

/-- The duration computation of `assembleProject`:
`timestamps.length > 0 ? timestamps[timestamps.length - 1].endTime : 0`. -/
def projectDuration (timestamps : List StepTimestamp) : Nat :=
  match timestamps.getLast? with
  | Option.some t => t.endTime
  | Option.none => 0

/-- `{...q, id: question-i}` of `assembleProject`. -/
def mkQuestionEntry (q : QuestionInput) (i : Nat) : QuestionEntry :=
  ⟨"question-" ++ toString i, q.«at», q.pauseVideo, q.question, q.type,
   q.options, q.correctAnswer, q.feedback⟩

/-- The `Project` value constructed by `assembleProject` in
`src/core/assembler.ts`. `projectId` stands for the fresh `uuid()`,
`createdAt` for `new Date().toISOString()`, and `audioFileExists` for
`fs.existsSync(input.audioPath)`; the function performs no other
input-dependent branching. -/
def assembleProject (input : AssemblerInput) (projectId : String)
    (createdAt : String) (audioFileExists : Bool) : Project :=
  let videoFileName := "video.webm"
  let audioFileName : Option String :=
    match input.audioPath with
    | Option.some p =>
      if p != "" && audioFileExists then Option.some "narration.mp3" else Option.none
    | Option.none => Option.none
  let duration := projectDuration input.timestamps
  let subtitles := generateSubtitles input.steps input.timestamps
  let highlights :=
    match input.autoHighlights with
    | Option.some l =>
      if l.length > 0 then l else generateHighlights input.steps input.timestamps
    | Option.none => generateHighlights input.steps input.timestamps
  let questions := (input.questions.getD []).enum.map (fun p => mkQuestionEntry p.2 p.1)
  let summary : Option SummaryLayer :=
    if input.generateSummary.getD false then
      Option.some (generateSummaryLayer input.steps input.timestamps)
    else
      Option.none
  let interactiveSteps := generateInteractiveSteps input.steps input.timestamps
  ⟨projectId,
   input.title,
   input.description,
   input.targetUrl,
   duration,
   createdAt,
   ⟨⟨videoFileName, 1280, 720⟩,
    (match audioFileName with
     | Option.some a => ⟨a, 1⟩
     | Option.none => ⟨"", 0⟩),
    subtitles,
    highlights,
    questions,
    summary⟩,
   interactiveSteps,
   Option.none,
   strOr input.defaultLanguage "en",
   input.availableLanguages.getD ["en"]⟩

/-! ### Claim C1: interactive steps are produced iff click/type with a hint,
in source order, with dense zero-based order values -/

/-- The predicate actually applied by `generateInteractiveSteps`:
`action ∈ {click, type}` and a highlight hint is present. -/
def interactiveQualifies (s : AutomationStep) : Bool :=
  (s.action == StepAction.click || s.action == StepAction.type) && s.highlight.isSome

lemma generateInteractiveStepsAux_map_id (steps : List AutomationStep) (n : Nat) :
    (generateInteractiveStepsAux steps n).map (fun i => i.id)
      = (steps.filter interactiveQualifies).map (fun s => "interactive-" ++ s.id) := by
  induction steps generalizing n with
  | nil => rfl
  | cons step rest ih =>
    simp only [generateInteractiveStepsAux, List.filter_cons, interactiveQualifies]
    split
    · rename_i hact
      split
      · rename_i h hh
        simpa [hact, hh, interactiveStepFor] using ih (n + 1)
      · rename_i hh
        simpa [hact, hh] using ih n
    · rename_i hact
      rw [Bool.not_eq_true] at hact
      simpa [hact] using ih n

lemma generateInteractiveStepsAux_map_order (steps : List AutomationStep) (n : Nat) :
    (generateInteractiveStepsAux steps n).map (fun i => i.order)
      = List.range' n (generateInteractiveStepsAux steps n).length := by
  induction steps generalizing n with
  | nil => rfl
  | cons step rest ih =>
    simp only [generateInteractiveStepsAux]
    split
    · split
      · rename_i h hh
        simp only [List.map_cons, List.length_cons, List.range'_succ]
        exact congrArg (fun l => (interactiveStepFor step h n).order :: l) (ih (n + 1))
      · exact ih n
    · exact ih n

/-- The claim's example trace: `[navigate, click+hint, type+hint, wait]`. -/
def c1DemoSteps : List AutomationStep :=
  [⟨"s1", StepAction.navigate, Option.none, Option.none, "open the site", "", Option.none, Option.none, Option.none⟩,
   ⟨"s2", StepAction.click, Option.none, Option.none, "click the button", "", Option.none, Option.none,
     Option.some ⟨10, 20, HighlightType.circle⟩⟩,
   ⟨"s3", StepAction.type, Option.none, Option.none, "type the name", "", Option.none, Option.none,
     Option.some ⟨30, 40, HighlightType.pulse⟩⟩,
   ⟨"s4", StepAction.wait, Option.none, Option.none, "wait", "", Option.none, Option.none, Option.none⟩]

/-- Claim C1: the compiler produces an InteractiveStep exactly for the trace
steps whose action is click or type and that carry a highlight hint, in
source order, and the produced order values are dense and zero-based
(`0, 1, 2, ...`); on the trace `[navigate, click+hint, type+hint, wait]`
it yields exactly the two steps with order `0` and `1`. -/
theorem C1_interactive_steps_iff_dense (steps : List AutomationStep)
    (timestamps : List StepTimestamp) :
    ((generateInteractiveSteps steps timestamps).map (fun i => i.id)
       = (steps.filter interactiveQualifies).map (fun s => "interactive-" ++ s.id))
  ∧ ((generateInteractiveSteps steps timestamps).map (fun i => i.order)
       = List.range (generateInteractiveSteps steps timestamps).length)
  ∧ ((generateInteractiveSteps c1DemoSteps []).map (fun i => (i.id, i.order))
       = [("interactive-s2", 0), ("interactive-s3", 1)]) := by
  refine ⟨generateInteractiveStepsAux_map_id steps 0, ?_, by decide⟩
  rw [List.range_eq_range']
  exact generateInteractiveStepsAux_map_order steps 0

/-! ### Claim C3: subtitle round-trip -/

lemma string_append_right_inj (a b c : String) (h : a ++ b = a ++ c) : b = c := by
  have hd : a.data ++ b.data = a.data ++ c.data := by
    simpa [String.data_append] using congrArg String.data h
  exact String.ext (List.append_cancel_left hd)

/-- No subtitle with id `subtitle-sid` is produced from steps none of which
has id `sid`. -/
lemma generateSubtitles_filter_id_nil (steps : List AutomationStep)
    (timestamps : List StepTimestamp) (sid : String)
    (h : ∀ s ∈ steps, s.id ≠ sid) :
    (generateSubtitles steps timestamps).filter
      (fun e => e.id == "subtitle-" ++ sid) = [] := by
  induction steps with
  | nil => rfl
  | cons step rest ih =>
    have hne : step.id ≠ sid := h step (by simp)
    have hih := ih (fun s hs => h s (by simp [hs]))
    have hbeq : (("subtitle-" ++ step.id : String) == "subtitle-" ++ sid) = false := by
      refine beq_eq_false_iff_ne.mpr (fun hcontra => ?_)
      exact hne (string_append_right_inj _ _ _ hcontra)
    simp only [generateSubtitles]
    split
    · split
      · simpa [subtitleFor, List.filter_cons, hbeq] using hih
      · exact hih
    · exact hih

/-- A step whose id has no timestamp contributes no subtitle, whether or not
other steps share its id. -/
lemma generateSubtitles_filter_id_nil_of_no_timestamp (steps : List AutomationStep)
    (timestamps : List StepTimestamp) (sid : String)
    (h : findTimestamp timestamps sid = Option.none) :
    (generateSubtitles steps timestamps).filter
      (fun e => e.id == "subtitle-" ++ sid) = [] := by
  induction steps with
  | nil => rfl
  | cons step rest ih =>
    by_cases hid : step.id = sid
    · simp only [generateSubtitles, hid, h]
      exact ih
    · have hbeq : (("subtitle-" ++ step.id : String) == "subtitle-" ++ sid) = false := by
        refine beq_eq_false_iff_ne.mpr (fun hcontra => ?_)
        exact hid (string_append_right_inj _ _ _ hcontra)
      simp only [generateSubtitles]
      split
      · split
        · simpa [subtitleFor, List.filter_cons, hbeq] using ih
        · exact ih
      · exact ih

/-- With distinct step ids, the step's subtitle is the only one carrying its
id. -/
lemma generateSubtitles_filter_id_singleton (steps : List AutomationStep)
    (timestamps : List StepTimestamp)
    (hnd : (steps.map (fun s => s.id)).Nodup)
    (step : AutomationStep) (hmem : step ∈ steps)
    (t : StepTimestamp) (ht : findTimestamp timestamps step.id = Option.some t)
    (hnarr : step.narration ≠ "") :
    (generateSubtitles steps timestamps).filter
      (fun e => e.id == "subtitle-" ++ step.id) = [subtitleFor step t] := by
  induction steps with
  | nil => cases hmem
  | cons s rest ih =>
    rw [List.map_cons] at hnd
    have hnd' := List.nodup_cons.mp hnd
    rcases List.mem_cons.mp hmem with rfl | hmem'
    · have hrest : ∀ u ∈ rest, u.id ≠ step.id := by
        intro u hu he
        exact hnd'.1 (he ▸ List.mem_map_of_mem (fun v => v.id) hu)
      simp only [generateSubtitles, ht, if_pos hnarr, List.filter_cons]
      have hbeq : (("subtitle-" ++ step.id : String) == "subtitle-" ++ step.id) = true :=
        beq_self_eq_true _
      simp only [subtitleFor, hbeq, if_pos]
      rw [generateSubtitles_filter_id_nil rest timestamps step.id hrest]
    · have hne : s.id ≠ step.id := by
        intro he
        exact hnd'.1 (he ▸ List.mem_map_of_mem (fun v => v.id) hmem')
      have hbeq : (("subtitle-" ++ s.id : String) == "subtitle-" ++ step.id) = false := by
        refine beq_eq_false_iff_ne.mpr (fun hcontra => ?_)
        exact hne (string_append_right_inj _ _ _ hcontra)
      have hih := ih hnd'.2 hmem'
      simp only [generateSubtitles]
      split
      · split
        · simpa [subtitleFor, List.filter_cons, hbeq] using hih
        · exact hih
      · exact hih

/-- Claim C3: for a trace with distinct step ids, a step with non-empty
narration and a matching timestamp yields exactly one subtitle, whose
window and text are exactly the timestamp's window and the step's
narration; a step whose id has no timestamp yields no subtitle (and
compilation still succeeds, `generateSubtitles` being total). -/
theorem C3_subtitle_roundtrip (steps : List AutomationStep)
    (timestamps : List StepTimestamp)
    (hnd : (steps.map (fun s => s.id)).Nodup)
    (step : AutomationStep) (hmem : step ∈ steps) :
    (∀ t, findTimestamp timestamps step.id = Option.some t → step.narration ≠ "" →
      (generateSubtitles steps timestamps).filter
          (fun e => e.id == "subtitle-" ++ step.id)
        = [⟨"subtitle-" ++ step.id, t.startTime, t.endTime, step.narration⟩])
  ∧ (findTimestamp timestamps step.id = Option.none →
      (generateSubtitles steps timestamps).filter
          (fun e => e.id == "subtitle-" ++ step.id) = []) := by
  constructor
  · intro t ht hnarr
    exact generateSubtitles_filter_id_singleton steps timestamps hnd step hmem t ht hnarr
  · intro hnone
    exact generateSubtitles_filter_id_nil_of_no_timestamp steps timestamps step.id hnone

/-- A concrete trace for the witness: step `a` is narrated and timed, step
`b` is narrated but has no timestamp. -/
def c3StepA : AutomationStep :=
  ⟨"a", StepAction.click, Option.none, Option.none, "the button", "hello",
   Option.none, Option.none, Option.none⟩

def c3StepB : AutomationStep :=
  ⟨"b", StepAction.click, Option.none, Option.none, "the field", "orphan",
   Option.none, Option.none, Option.none⟩

def c3Steps : List AutomationStep := [c3StepA, c3StepB]

def c3Timestamps : List StepTimestamp := [⟨"a", 2, 7⟩]

theorem C3_subtitle_roundtrip_witness :
    ((c3Steps.map (fun s => s.id)).Nodup ∧ c3StepA ∈ c3Steps
      ∧ findTimestamp c3Timestamps c3StepA.id = Option.some ⟨"a", 2, 7⟩
      ∧ c3StepA.narration ≠ ""
      ∧ findTimestamp c3Timestamps c3StepB.id = Option.none)
    ∧ (generateSubtitles c3Steps c3Timestamps).filter
          (fun e => e.id == "subtitle-" ++ c3StepA.id)
        = [⟨"subtitle-" ++ c3StepA.id, 2, 7, c3StepA.narration⟩]
    ∧ (generateSubtitles c3Steps c3Timestamps).filter
          (fun e => e.id == "subtitle-" ++ c3StepB.id) = [] :=
  ⟨⟨by decide, by decide, by decide, by decide, by decide⟩,
   (C3_subtitle_roundtrip c3Steps c3Timestamps (by decide) c3StepA (by decide)).1
     ⟨"a", 2, 7⟩ (by decide) (by decide),
   (C3_subtitle_roundtrip c3Steps c3Timestamps (by decide) c3StepB (by decide)).2
     (by decide)⟩

/-! ### Claim C2: duration -/

/-- Definition following the claim's words: the maximum `endMs` over all
supplied timestamps, `0` when there are none. -/
def specMaxEndMs (timestamps : List StepTimestamp) : Nat :=
  ((timestamps.map (fun t => t.endTime)).max?).getD 0

lemma max?_eq_getLast?_of_sorted :
    ∀ (l : List Nat), l.Pairwise (· ≤ ·) → l.max? = l.getLast?
  | [], _ => rfl
  | [_], _ => rfl
  | a :: b :: t, h => by
    have hab : a ≤ b := (List.pairwise_cons.mp h).1 b (by simp)
    have ih := max?_eq_getLast?_of_sorted (b :: t) (List.pairwise_cons.mp h).2
    calc (a :: b :: t).max? = Option.some (t.foldl max (max a b)) := rfl
      _ = Option.some (t.foldl max b) := by rw [Nat.max_eq_right hab]
      _ = (b :: t).max? := rfl
      _ = (b :: t).getLast? := ih
      _ = (a :: b :: t).getLast? := (List.getLast?_cons_cons).symm

lemma projectDuration_eq_getLast (timestamps : List StepTimestamp) :
    projectDuration timestamps
      = ((timestamps.map (fun t => t.endTime)).getLast?).getD 0 := by
  rw [List.getLast?_map]
  unfold projectDuration
  cases timestamps.getLast? <;> rfl

/-- Claim C2 (amended): the compiled duration is the `endTime` of the *last*
timestamp (`0` when there are none); when the `endMs` values are
non-decreasing in list order — which the data model guarantees for recorded
traces — this equals the maximum `endMs` over all timestamps. -/
theorem C2_duration_eq_max_end (input : AssemblerInput) (projectId createdAt : String)
    (audioFileExists : Bool)
    (hmono : input.timestamps.Pairwise (fun a b => a.endTime ≤ b.endTime)) :
    (assembleProject input projectId createdAt audioFileExists).duration
      = specMaxEndMs input.timestamps := by
  have h1 : (assembleProject input projectId createdAt audioFileExists).duration
      = projectDuration input.timestamps := rfl
  have h2 : (input.timestamps.map (fun t => t.endTime)).Pairwise (α := Nat) (· ≤ ·) :=
    List.Pairwise.map _ (fun a b hab => hab) hmono
  rw [h1, projectDuration_eq_getLast, specMaxEndMs,
    max?_eq_getLast?_of_sorted _ h2]

/-- A concrete monotone input discharging the hypothesis of
`C2_duration_eq_max_end`. -/
def c2SortedInput : AssemblerInput :=
  ⟨"t", "d", "https://example.org", "v.webm", Option.none, [],
   [⟨"a", 0, 4⟩, ⟨"b", 4, 9⟩],
   Option.none, Option.none, Option.none, Option.none, Option.none, Option.none⟩

theorem C2_duration_eq_max_end_witness :
    c2SortedInput.timestamps.Pairwise (fun a b => a.endTime ≤ b.endTime)
    ∧ (assembleProject c2SortedInput "p" "now" false).duration
        = specMaxEndMs c2SortedInput.timestamps :=
  ⟨by decide, C2_duration_eq_max_end c2SortedInput "p" "now" false (by decide)⟩

/-- An input whose timestamps are not monotone: the last `endMs` is 5 but
the maximum is 10. -/
def c2Input : AssemblerInput :=
  ⟨"t", "d", "https://example.org", "v.webm", Option.none, [],
   [⟨"a", 0, 10⟩, ⟨"b", 0, 5⟩],
   Option.none, Option.none, Option.none, Option.none, Option.none, Option.none⟩

/-- Claim C2 counterexample: on an input whose timestamp list is not sorted
by `endMs`, the compiled duration is the last timestamp's `endMs` (5), not
the maximum over all timestamps (10). -/
theorem C2_claim_counterexample :
    (assembleProject c2Input "p" "now" false).duration = 5
    ∧ specMaxEndMs c2Input.timestamps = 10
    ∧ (assembleProject c2Input "p" "now" false).duration
        ≠ specMaxEndMs c2Input.timestamps := by
  refine ⟨rfl, by decide, by decide⟩

/-! ### Claim C4: highlight layer -/

/-- No highlight with id `highlight-sid` is produced from steps none of
which has id `sid`. -/
lemma generateHighlights_filter_id_nil (steps : List AutomationStep)
    (timestamps : List StepTimestamp) (sid : String)
    (h : ∀ s ∈ steps, s.id ≠ sid) :
    (generateHighlights steps timestamps).filter
      (fun e => e.id == "highlight-" ++ sid) = [] := by
  induction steps with
  | nil => rfl
  | cons step rest ih =>
    have hne : step.id ≠ sid := h step (by simp)
    have hih := ih (fun s hs => h s (by simp [hs]))
    have hbeq : (("highlight-" ++ step.id : String) == "highlight-" ++ sid) = false := by
      refine beq_eq_false_iff_ne.mpr (fun hcontra => ?_)
      exact hne (string_append_right_inj _ _ _ hcontra)
    simp only [generateHighlights]
    split
    · split
      · simpa [highlightFor, List.filter_cons, hbeq] using hih
      · exact hih
    · exact hih

/-- A hinted step whose id has no timestamp contributes no highlight. -/
lemma generateHighlights_filter_id_nil_of_no_timestamp (steps : List AutomationStep)
    (timestamps : List StepTimestamp) (sid : String)
    (h : findTimestamp timestamps sid = Option.none) :
    (generateHighlights steps timestamps).filter
      (fun e => e.id == "highlight-" ++ sid) = [] := by
  induction steps with
  | nil => rfl
  | cons step rest ih =>
    by_cases hid : step.id = sid
    · simp only [generateHighlights]
      split
      · simp only [hid, h]
        exact ih
      · exact ih
    · have hbeq : (("highlight-" ++ step.id : String) == "highlight-" ++ sid) = false := by
        refine beq_eq_false_iff_ne.mpr (fun hcontra => ?_)
        exact hid (string_append_right_inj _ _ _ hcontra)
      simp only [generateHighlights]
      split
      · split
        · simpa [highlightFor, List.filter_cons, hbeq] using ih
        · exact ih
      · exact ih

/-- With distinct step ids, the step's generated highlight is the only one
carrying its id. -/
lemma generateHighlights_filter_id_singleton (steps : List AutomationStep)
    (timestamps : List StepTimestamp)
    (hnd : (steps.map (fun s => s.id)).Nodup)
    (step : AutomationStep) (hmem : step ∈ steps)
    (h : HighlightHint) (hh : step.highlight = Option.some h)
    (t : StepTimestamp) (ht : findTimestamp timestamps step.id = Option.some t) :
    (generateHighlights steps timestamps).filter
      (fun e => e.id == "highlight-" ++ step.id) = [highlightFor step h t] := by
  induction steps with
  | nil => cases hmem
  | cons s rest ih =>
    rw [List.map_cons] at hnd
    have hnd' := List.nodup_cons.mp hnd
    rcases List.mem_cons.mp hmem with rfl | hmem'
    · have hrest : ∀ u ∈ rest, u.id ≠ step.id := by
        intro u hu he
        exact hnd'.1 (he ▸ List.mem_map_of_mem (fun v => v.id) hu)
      simp only [generateHighlights, hh, ht, List.filter_cons]
      have hbeq : (("highlight-" ++ step.id : String) == "highlight-" ++ step.id) = true :=
        beq_self_eq_true _
      simp only [highlightFor, hbeq, if_pos]
      rw [generateHighlights_filter_id_nil rest timestamps step.id hrest]
    · have hne : s.id ≠ step.id := by
        intro he
        exact hnd'.1 (he ▸ List.mem_map_of_mem (fun v => v.id) hmem')
      have hbeq : (("highlight-" ++ s.id : String) == "highlight-" ++ step.id) = false := by
        refine beq_eq_false_iff_ne.mpr (fun hcontra => ?_)
        exact hne (string_append_right_inj _ _ _ hcontra)
      have hih := ih hnd'.2 hmem'
      simp only [generateHighlights]
      split
      · split
        · simpa [highlightFor, List.filter_cons, hbeq] using hih
        · exact hih
      · exact hih

/-- Claim C4 (amended): a non-empty auto-detected highlight list is used
verbatim; otherwise (list absent or empty) the layer is derived from the
trace, with exactly one highlight — of the fixed default size
`width = height = 5` percent — per step that both declares a highlight hint
*and* has a matching timestamp; a hinted step with no timestamp yields no
highlight. -/
theorem C4_highlight_layer (input : AssemblerInput) (projectId createdAt : String)
    (audioFileExists : Bool) :
    (∀ l : List HighlightEntry, input.autoHighlights = Option.some l → l ≠ [] →
      (assembleProject input projectId createdAt audioFileExists).layers.highlights = l)
  ∧ ((input.autoHighlights = Option.none ∨ input.autoHighlights = Option.some []) →
      (assembleProject input projectId createdAt audioFileExists).layers.highlights
        = generateHighlights input.steps input.timestamps)
  ∧ (∀ steps : List AutomationStep, ∀ timestamps : List StepTimestamp,
      (steps.map (fun s => s.id)).Nodup →
      ∀ step ∈ steps, ∀ h : HighlightHint, step.highlight = Option.some h →
      ∀ t : StepTimestamp, findTimestamp timestamps step.id = Option.some t →
      (generateHighlights steps timestamps).filter
          (fun e => e.id == "highlight-" ++ step.id)
        = [⟨"highlight-" ++ step.id, t.startTime, t.endTime, h.x, h.y,
            Option.some 5, Option.some 5, h.type,
            Option.none, Option.none, Option.none, Option.none, Option.none⟩])
  ∧ (∀ steps : List AutomationStep, ∀ timestamps : List StepTimestamp,
      ∀ step : AutomationStep,
      findTimestamp timestamps step.id = Option.none →
      (generateHighlights steps timestamps).filter
          (fun e => e.id == "highlight-" ++ step.id) = []) := by
  have hproj : (assembleProject input projectId createdAt audioFileExists).layers.highlights
      = (match input.autoHighlights with
         | Option.some l =>
           if l.length > 0 then l else generateHighlights input.steps input.timestamps
         | Option.none => generateHighlights input.steps input.timestamps) := rfl
  refine ⟨?_, ?_, ?_, ?_⟩
  · intro l hal hne
    rw [hproj, hal]
    exact if_pos (List.length_pos.mpr hne)
  · intro hal
    rcases hal with hal | hal <;> rw [hproj, hal]
    rfl
  · intro steps timestamps hnd step hmem h hh t ht
    exact generateHighlights_filter_id_singleton steps timestamps hnd step hmem h hh t ht
  · intro steps timestamps step ht
    exact generateHighlights_filter_id_nil_of_no_timestamp steps timestamps step.id ht

/-- A hinted click step with no timestamps at all. -/
def c4Step : AutomationStep :=
  ⟨"s", StepAction.click, Option.none, Option.none, "the button", "",
   Option.none, Option.none, Option.some ⟨1, 2, HighlightType.circle⟩⟩

def c4Input : AssemblerInput :=
  ⟨"t", "d", "https://example.org", "v.webm", Option.none, [c4Step], [],
   Option.none, Option.none, Option.none, Option.none, Option.none, Option.none⟩

/-- Claim C4 counterexample: with no auto-detected list, one trace step
declaring a highlight hint but lacking a matching timestamp, the compiled
highlight layer is empty — not one highlight per hint-declaring step. -/
theorem C4_claim_counterexample :
    c4Input.autoHighlights = Option.none
    ∧ (c4Input.steps.filter (fun s => s.highlight.isSome)).length = 1
    ∧ (assembleProject c4Input "p" "now" false).layers.highlights = [] := by
  decide

def c4AutoList : List HighlightEntry :=
  [⟨"auto-1", 0, 3, 40, 60, Option.some 12, Option.some 9, HighlightType.rectangle,
    Option.none, Option.none, Option.none, Option.none, Option.some "shot-1.png"⟩]

def c4AutoInput : AssemblerInput :=
  ⟨"t", "d", "https://example.org", "v.webm", Option.none, [c4Step], [],
   Option.none, Option.none, Option.none, Option.some c4AutoList,
   Option.none, Option.none⟩

theorem C4_highlight_layer_witness :
    (c4AutoInput.autoHighlights = Option.some c4AutoList ∧ c4AutoList ≠ [])
    ∧ (assembleProject c4AutoInput "p" "now" false).layers.highlights = c4AutoList
    ∧ (assembleProject c4Input "p" "now" false).layers.highlights
        = generateHighlights c4Input.steps c4Input.timestamps
    ∧ (generateHighlights c4Input.steps c4Input.timestamps).filter
        (fun e => e.id == "highlight-" ++ c4Step.id) = [] :=
  ⟨⟨by decide, by decide⟩,
   (C4_highlight_layer c4AutoInput "p" "now" false).1 c4AutoList rfl (by decide),
   (C4_highlight_layer c4Input "p" "now" false).2.1 (Or.inl rfl),
   (C4_highlight_layer c4Input "p" "now" false).2.2.2 c4Input.steps c4Input.timestamps
     c4Step (by decide)⟩

/-! ### Claim C5: determinism up to freshly generated identity -/

/-- Claim C5 (amended): two compile runs on identical input agree on every
field except the freshly generated project id *and* the freshly generated
`createdAt` wall-clock stamp. -/
theorem C5_deterministic_except_identity (input : AssemblerInput)
    (pid1 ca1 pid2 ca2 : String) (audioFileExists : Bool) :
    (assembleProject input pid1 ca1 audioFileExists).title
        = (assembleProject input pid2 ca2 audioFileExists).title
    ∧ (assembleProject input pid1 ca1 audioFileExists).description
        = (assembleProject input pid2 ca2 audioFileExists).description
    ∧ (assembleProject input pid1 ca1 audioFileExists).targetUrl
        = (assembleProject input pid2 ca2 audioFileExists).targetUrl
    ∧ (assembleProject input pid1 ca1 audioFileExists).duration
        = (assembleProject input pid2 ca2 audioFileExists).duration
    ∧ (assembleProject input pid1 ca1 audioFileExists).layers
        = (assembleProject input pid2 ca2 audioFileExists).layers
    ∧ (assembleProject input pid1 ca1 audioFileExists).interactiveSteps
        = (assembleProject input pid2 ca2 audioFileExists).interactiveSteps
    ∧ (assembleProject input pid1 ca1 audioFileExists).scorm
        = (assembleProject input pid2 ca2 audioFileExists).scorm
    ∧ (assembleProject input pid1 ca1 audioFileExists).defaultLanguage
        = (assembleProject input pid2 ca2 audioFileExists).defaultLanguage
    ∧ (assembleProject input pid1 ca1 audioFileExists).availableLanguages
        = (assembleProject input pid2 ca2 audioFileExists).availableLanguages :=
  ⟨rfl, rfl, rfl, rfl, rfl, rfl, rfl, rfl, rfl⟩

def c5Input : AssemblerInput :=
  ⟨"t", "d", "https://example.org", "v.webm", Option.none, [], [],
   Option.none, Option.none, Option.none, Option.none, Option.none, Option.none⟩

/-- Claim C5 counterexample: the claim lists `createdAt` among the fields
identical across two runs, but `createdAt` is `new Date().toISOString()`
taken at each run; two runs at different instants differ on it. -/
theorem C5_claim_counterexample :
    (assembleProject c5Input "p1" "2024-01-01T00:00:00.000Z" false).createdAt
      ≠ (assembleProject c5Input "p2" "2024-01-02T00:00:00.000Z" false).createdAt := by
  decide

/-! ### Claim C6: timestamps referencing unknown steps -/

/-- The timestamps whose `stepId` belongs to some step of the trace. -/
def relevantTimestamps (steps : List AutomationStep)
    (timestamps : List StepTimestamp) : List StepTimestamp :=
  timestamps.filter (fun t => steps.any (fun s => s.id == t.stepId))

/-- `input` with its timestamp list replaced. -/
def setTimestamps (input : AssemblerInput) (timestamps : List StepTimestamp) :
    AssemblerInput :=
  ⟨input.title, input.description, input.targetUrl, input.videoPath,
   input.audioPath, input.steps, timestamps, input.narrationSegments,
   input.questions, input.generateSummary, input.autoHighlights,
   input.defaultLanguage, input.availableLanguages⟩

/-- For a step of the trace, dropping the timestamps that reference unknown
steps does not change the timestamp lookup. -/
lemma findTimestamp_relevant (steps : List AutomationStep)
    (timestamps : List StepTimestamp) (step : AutomationStep)
    (hmem : step ∈ steps) :
    findTimestamp (relevantTimestamps steps timestamps) step.id
      = findTimestamp timestamps step.id := by
  induction timestamps with
  | nil => rfl
  | cons t rest ih =>
    by_cases hid : t.stepId = step.id
    · have hany : steps.any (fun s => s.id == t.stepId) = true :=
        List.any_eq_true.mpr ⟨step, hmem, by simp [hid]⟩
      simp only [relevantTimestamps, List.filter_cons, hany, if_pos]
      simp only [findTimestamp, List.find?_cons, beq_iff_eq, hid]
      simp [relevantTimestamps, findTimestamp] at ih
      simp [ih]
    · have hbeq : (t.stepId == step.id) = false := beq_eq_false_iff_ne.mpr hid
      by_cases hany : steps.any (fun s => s.id == t.stepId) = true
      · simp only [relevantTimestamps, List.filter_cons, hany, if_pos]
        simp only [findTimestamp, List.find?_cons, hbeq]
        simpa [relevantTimestamps, findTimestamp] using ih
      · simp only [relevantTimestamps, List.filter_cons,
          Bool.not_eq_true] at hany ⊢
        rw [hany]
        simp only [findTimestamp, List.find?_cons, hbeq]
        simpa [relevantTimestamps, findTimestamp] using ih

lemma generateSubtitles_relevant (steps allSteps : List AutomationStep)
    (timestamps : List StepTimestamp)
    (hsub : ∀ s ∈ steps, s ∈ allSteps) :
    generateSubtitles steps (relevantTimestamps allSteps timestamps)
      = generateSubtitles steps timestamps := by
  induction steps with
  | nil => rfl
  | cons step rest ih =>
    have hfind := findTimestamp_relevant allSteps timestamps step (hsub step (by simp))
    have hih := ih (fun s hs => hsub s (by simp [hs]))
    simp only [generateSubtitles, hfind, hih]

lemma generateHighlights_relevant (steps allSteps : List AutomationStep)
    (timestamps : List StepTimestamp)
    (hsub : ∀ s ∈ steps, s ∈ allSteps) :
    generateHighlights steps (relevantTimestamps allSteps timestamps)
      = generateHighlights steps timestamps := by
  induction steps with
  | nil => rfl
  | cons step rest ih =>
    have hfind := findTimestamp_relevant allSteps timestamps step (hsub step (by simp))
    have hih := ih (fun s hs => hsub s (by simp [hs]))
    simp only [generateHighlights, hfind, hih]

/-- Claim C6 (amended): compilation does not fail on a timestamp whose
`stepId` matches no trace step; such timestamps are simply never matched —
the subtitle layer, the trace-derived highlight layer, and the interactive
steps are the same as if they were removed. (The dangling timestamp does
still feed the duration computation when it is last in the list.) -/
theorem C6_dangling_timestamp_ignored (input : AssemblerInput)
    (projectId createdAt : String) (audioFileExists : Bool) :
    (assembleProject (setTimestamps input (relevantTimestamps input.steps input.timestamps))
        projectId createdAt audioFileExists).layers.subtitles
      = (assembleProject input projectId createdAt audioFileExists).layers.subtitles
    ∧ (generateHighlights input.steps (relevantTimestamps input.steps input.timestamps)
        = generateHighlights input.steps input.timestamps)
    ∧ (assembleProject (setTimestamps input (relevantTimestamps input.steps input.timestamps))
        projectId createdAt audioFileExists).interactiveSteps
      = (assembleProject input projectId createdAt audioFileExists).interactiveSteps := by
  refine ⟨?_, ?_, rfl⟩
  · show generateSubtitles input.steps (relevantTimestamps input.steps input.timestamps)
      = generateSubtitles input.steps input.timestamps
    exact generateSubtitles_relevant input.steps input.steps input.timestamps (fun s hs => hs)
  · exact generateHighlights_relevant input.steps input.steps input.timestamps (fun s hs => hs)

/-- An input whose only timestamp references the unknown step id `ghost`. -/
def c6Input : AssemblerInput :=
  ⟨"t", "d", "https://example.org", "v.webm", Option.none,
   [⟨"a", StepAction.click, Option.none, Option.none, "the button", "hi",
     Option.none, Option.none, Option.none⟩],
   [⟨"ghost", 0, 5⟩],
   Option.none, Option.none, Option.none, Option.none, Option.none, Option.none⟩

/-- Claim C6 counterexample: on an input containing a timestamp whose
`stepId` (`ghost`) matches no trace step, compilation succeeds and returns
a fully formed project (it even takes its duration from the dangling
timestamp) instead of failing fast. -/
theorem C6_claim_counterexample :
    (assembleProject c6Input "p" "now" false).duration = 5
    ∧ (assembleProject c6Input "p" "now" false).layers.subtitles = []
    ∧ (assembleProject c6Input "p" "now" false).id = "p" := by
  decide

/-! ### Claim C7: defaultLanguage membership -/

/-- Claim C7 (amended): the compiled project's `defaultLanguage` is a member
of its `availableLanguages` when the input supplies neither field (both
default to English); when the caller supplies them explicitly they are
passed through without any membership check. -/
theorem C7_default_language_member (input : AssemblerInput)
    (projectId createdAt : String) (audioFileExists : Bool)
    (h1 : input.defaultLanguage = Option.none)
    (h2 : input.availableLanguages = Option.none) :
    (assembleProject input projectId createdAt audioFileExists).defaultLanguage
      ∈ (assembleProject input projectId createdAt audioFileExists).availableLanguages := by
  show strOr input.defaultLanguage "en" ∈ input.availableLanguages.getD ["en"]
  rw [h1, h2]
  simp [strOr]

def c7DefaultedInput : AssemblerInput :=
  ⟨"t", "d", "https://example.org", "v.webm", Option.none, [], [],
   Option.none, Option.none, Option.none, Option.none, Option.none, Option.none⟩

theorem C7_default_language_member_witness :
    (c7DefaultedInput.defaultLanguage = Option.none
      ∧ c7DefaultedInput.availableLanguages = Option.none)
    ∧ (assembleProject c7DefaultedInput "p" "now" false).defaultLanguage
        ∈ (assembleProject c7DefaultedInput "p" "now" false).availableLanguages :=
  ⟨⟨rfl, rfl⟩, C7_default_language_member c7DefaultedInput "p" "now" false rfl rfl⟩

/-- An input that explicitly supplies `defaultLanguage = "fr"` but
`availableLanguages = ["en"]`. -/
def c7Input : AssemblerInput :=
  ⟨"t", "d", "https://example.org", "v.webm", Option.none, [], [],
   Option.none, Option.none, Option.none, Option.none,
   Option.some "fr", Option.some ["en"]⟩

/-- Claim C7 counterexample: with explicitly supplied languages the compiler
performs no validation, so the constructed project violates the invariant:
`defaultLanguage = "fr"` is not a member of `availableLanguages = ["en"]`. -/
theorem C7_claim_counterexample :
    (assembleProject c7Input "p" "now" false).defaultLanguage = "fr"
    ∧ (assembleProject c7Input "p" "now" false).availableLanguages = ["en"]
    ∧ (assembleProject c7Input "p" "now" false).defaultLanguage
        ∉ (assembleProject c7Input "p" "now" false).availableLanguages := by
  decide

/-! ### Claim C8: playback hit-testing -/

/-- Modelled from the spec: the Interactive Playback Engine's pointer
hit-test (spec section 4.2). The player client that performs this test is not
part of the repository's source tree, so this definition follows the spec's
words: a pointer event at viewport-relative percentage coordinates is
correct iff it falls within the target rectangle (centred at the target's
`x`,`y` — positions in this system are element centres — with its
`width` × `height` in percent) expanded by `tolerance` pixels converted to
percentage units at the current viewport dimensions; comparisons are
closed, so a point exactly on the expanded boundary counts as inside. -/
def hitTest (target : ClickTarget) (viewportWidth viewportHeight : Rat)
    (px py : Rat) : Bool :=
  let tolX := target.tolerance.getD 0 / viewportWidth * 100
  let tolY := target.tolerance.getD 0 / viewportHeight * 100
  let left := target.x - target.width / 2 - tolX
  let right := target.x + target.width / 2 + tolX
  let top := target.y - target.height / 2 - tolY
  let bottom := target.y + target.height / 2 + tolY
  decide (left ≤ px) && decide (px ≤ right) && decide (top ≤ py) && decide (py ≤ bottom)

/-- The target of the spec's hit-test example. -/
def c8Target : ClickTarget :=
  ⟨50, 50, 10, 8, Option.none, Option.none, Option.some 15⟩

/-- Claim C8: with target `x 50, y 50, width 10, height 8, tolerance 15px`
on a 1280 × 720 viewport, the pointer `(55, 54)` is judged correct and
`(70, 70)` incorrect; the tolerance-expanded left edge lies at
`45 - (15/1280)*100 = 2805/64` percent, a pointer exactly on it is inside
(closed interval), and one a millionth of a percent further out is not. -/
theorem C8_hit_test_example :
    hitTest c8Target 1280 720 55 54 = true
    ∧ hitTest c8Target 1280 720 70 70 = false
    ∧ hitTest c8Target 1280 720 (2805 / 64) 50 = true
    ∧ hitTest c8Target 1280 720 (2805 / 64 - 1 / 1000000) 50 = false
    ∧ hitTest c8Target 1280 720 (3595 / 64) 50 = true
    ∧ hitTest c8Target 1280 720 (3595 / 64 + 1 / 1000000) 50 = false := by
  refine ⟨?_, ?_, ?_, ?_, ?_, ?_⟩ <;> norm_num [hitTest, c8Target]

/-! ### Claim C9: field-name inference (`src/core/element-detector.ts`) -/

/-- The DOM facts read by the `element.evaluate` closure of
`detectElement`: each `getAttribute` result is `Option String` (`none` for
a missing attribute), `labelForText` is the text content of the
`label[for=id]` element when one exists, `parentLabelText` the text content
of the closest ancestor `label`, and `textContent` the element's own text. -/
structure DomElement where
  idAttr : Option String
  labelForText : Option String
  parentLabelText : Option String
  placeholder : Option String
  ariaLabel : Option String
  titleAttr : Option String
  nameAttr : Option String
  textContent : Option String
  altAttr : Option String
  valueAttr : Option String
  tagName : String
  typeAttr : Option String
deriving DecidableEq

/-- JavaScript `s.trim()`: the string with leading and trailing whitespace
removed, written directly on the character list so that it evaluates by
kernel reduction. -/
def jsTrim (s : String) : String :=
  String.mk (((s.data.dropWhile Char.isWhitespace).reverse.dropWhile
    Char.isWhitespace).reverse)

/-- JavaScript `s.replace(pat, '')` with a string pattern: removes only the
first occurrence (and is the identity for the empty pattern). -/
def replaceFirst (s pat : String) : String :=
  match s.splitOn pat with
  | [] => s
  | [x] => x
  | x :: rest => x ++ String.intercalate pat rest

/-- Rule 1 of `detectElement`: the text of an associated `label[for=id]`,
trimmed; applies only when the element has a truthy `id` and the label's
text is truthy. -/
def labelForFieldName (e : DomElement) : Option String :=
  if jsTruthy e.idAttr then
    match e.labelForText with
    | Option.some lt => if lt != "" then Option.some (jsTrim lt) else Option.none
    | Option.none => Option.none
  else
    Option.none

/-- Rule 2 of `detectElement`: the closest ancestor label's trimmed text
with the element's own text removed (first occurrence), trimmed. -/
def parentLabelFieldName (e : DomElement) : Option String :=
  match e.parentLabelText with
  | Option.some pt =>
    if pt != "" then
      Option.some (jsTrim (replaceFirst (jsTrim pt) (e.textContent.getD "")))
    else
      Option.none
  | Option.none => Option.none

/-- Rule 7 of `detectElement`: the element's own trimmed text, when truthy. -/
def textFieldName (e : DomElement) : Option String :=
  if jsTruthy e.textContent then
    Option.some (jsTrim (e.textContent.getD ""))
  else
    Option.none

/-- Rule 10 of `detectElement`: `tagName.toLowerCase()` plus the `type`
attribute in parentheses when present. -/
def fallbackFieldName (e : DomElement) : String :=
  let t := e.typeAttr.getD ""
  jsToLower e.tagName ++ (if t != "" then " (" ++ t ++ ")" else "")

/-- The sequential assignments of `detectElement`'s field-name inference,
translated verbatim: `fieldName` starts as `null`; rules 1, 2 and 7 assign
only when their own guards hold, rules 3–6, 8 and 9 assign the raw
attribute whenever `fieldName` is still falsy. -/
def inferFieldNameRaw (e : DomElement) : Option String :=
  let f0 : Option String := Option.none
  let f1 := if jsTruthy f0 then f0 else
    (match labelForFieldName e with
     | Option.some v => Option.some v
     | Option.none => f0)
  let f2 := if jsTruthy f1 then f1 else
    (match parentLabelFieldName e with
     | Option.some v => Option.some v
     | Option.none => f1)
  let f3 := if jsTruthy f2 then f2 else e.placeholder
  let f4 := if jsTruthy f3 then f3 else e.ariaLabel
  let f5 := if jsTruthy f4 then f4 else e.titleAttr
  let f6 := if jsTruthy f5 then f5 else e.nameAttr
  let f7 := if jsTruthy f6 then f6 else
    (match textFieldName e with
     | Option.some v => Option.some v
     | Option.none => f6)
  let f8 := if jsTruthy f7 then f7 else e.altAttr
  let f9 := if jsTruthy f8 then f8 else e.valueAttr
  f9

/-- The inferred field name of `detectElement`: the sequential rule chain,
replaced by the tag-name fallback when it produced nothing, an empty name,
or a name of length 100 or more. -/
def inferFieldName (e : DomElement) : String :=
  match inferFieldNameRaw e with
  | Option.some s => if s = "" ∨ 100 ≤ s.length then fallbackFieldName e else s
  | Option.none => fallbackFieldName e

/-- The prioritized rule list named by the spec: label (for/parent),
placeholder, aria-label, title, name, text, alt, value. -/
def fieldNameRules (e : DomElement) : List (Option String) :=
  [labelForFieldName e, parentLabelFieldName e, e.placeholder, e.ariaLabel,
   e.titleAttr, e.nameAttr, textFieldName e, e.altAttr, e.valueAttr]

/-- The first rule that yields a (truthy, i.e. non-empty) name. -/
def firstYieldedName (e : DomElement) : Option String :=
  ((fieldNameRules e).find? jsTruthy).join

/-- Definition following the claim's words: the name is chosen by the first
applicable rule, and the tag-name fallback applies only when no earlier
rule yields a name. -/
def specFieldName (e : DomElement) : String :=
  match firstYieldedName e with
  | Option.some s => s
  | Option.none => fallbackFieldName e

/-- A 100-character name. -/
def c9LongText : String := String.mk (List.replicate 100 'a')

/-- A plain `div` whose only name source is a 100-character text content. -/
def c9Elem : DomElement :=
  ⟨Option.none, Option.none, Option.none, Option.none, Option.none,
   Option.none, Option.none, Option.some c9LongText, Option.none,
   Option.none, "div", Option.none⟩

/-- Claim C9 counterexample: the element-text rule yields a (non-empty)
100-character name, yet the code discards it and falls back to the tag
name, so the inferred name is not the first applicable rule's result. -/
theorem C9_claim_counterexample :
    inferFieldName c9Elem = "div"
    ∧ specFieldName c9Elem = c9LongText
    ∧ inferFieldName c9Elem ≠ specFieldName c9Elem := by
  decide

/-- One assignment of the sequential chain, generically: `p.1` marks a
guarded rule (1, 2 and 7), which leaves the accumulator untouched when its
own guard failed; an unguarded rule assigns its raw value whenever the
accumulator is still falsy. -/
def seqStep (acc : Option String) (p : Bool × Option String) : Option String :=
  if jsTruthy acc then acc
  else if p.1 then
    (match p.2 with
     | Option.some v => Option.some v
     | Option.none => acc)
  else p.2

/-- The nine assignments of `detectElement`'s inference, in source order. -/
def ruleAssignments (e : DomElement) : List (Bool × Option String) :=
  [(true, labelForFieldName e), (true, parentLabelFieldName e),
   (false, e.placeholder), (false, e.ariaLabel), (false, e.titleAttr),
   (false, e.nameAttr), (true, textFieldName e), (false, e.altAttr),
   (false, e.valueAttr)]

lemma inferFieldNameRaw_eq_foldl (e : DomElement) :
    inferFieldNameRaw e = (ruleAssignments e).foldl seqStep Option.none := rfl

lemma foldl_seqStep_absorb (l : List (Bool × Option String)) (acc : Option String)
    (h : jsTruthy acc = true) : l.foldl seqStep acc = acc := by
  induction l with
  | nil => rfl
  | cons p rest ih =>
    have hstep : seqStep acc p = acc := if_pos h
    rw [List.foldl_cons, hstep, ih]

/-- Once the accumulator is falsy, the chain's result is observably the
first truthy rule value: same truthiness, and equal to it when truthy. -/
lemma foldl_seqStep_obs (l : List (Bool × Option String)) (acc : Option String)
    (hacc : jsTruthy acc = false) :
    jsTruthy (l.foldl seqStep acc) = jsTruthy (((l.map Prod.snd).find? jsTruthy).join)
    ∧ (jsTruthy (l.foldl seqStep acc) = true →
        l.foldl seqStep acc = ((l.map Prod.snd).find? jsTruthy).join) := by
  induction l generalizing acc with
  | nil =>
    constructor
    · simpa [jsTruthy] using hacc
    · intro h
      rw [List.foldl_nil] at h
      rw [h] at hacc
      cases hacc
  | cons p rest ih =>
    rw [List.foldl_cons, List.map_cons]
    by_cases htr : jsTruthy p.2 = true
    · have hstep : seqStep acc p = p.2 := by
        rcases hp2 : p.2 with _ | v
        · rw [hp2] at htr
          cases htr
        · simp only [seqStep, hacc, Bool.false_eq_true, if_false, hp2]
          by_cases hg : p.1 <;> simp [hg]
      rw [hstep, foldl_seqStep_absorb rest p.2 htr, List.find?_cons_of_pos _ htr]
      rcases hp2 : p.2 with _ | v
      · rw [hp2] at htr
        cases htr
      · exact ⟨rfl, fun _ => rfl⟩
    · rw [Bool.not_eq_true] at htr
      have hacc' : jsTruthy (seqStep acc p) = false := by
        simp only [seqStep, hacc, Bool.false_eq_true, if_false]
        by_cases hg : p.1
        · rcases hp2 : p.2 with _ | v
          · simpa [hg] using hacc
          · rw [hp2] at htr
            simpa [hg] using htr
        · simpa [hg] using htr
      have hihere := ih (seqStep acc p) hacc'
      rw [List.find?_cons_of_neg _ (by rw [htr]; exact Bool.false_ne_true)]
      exact hihere

/-- Claim C9 (amended): the inferred field name is the first applicable
rule's result in the fixed priority order label → placeholder → aria-label
→ title → name → text → alt → value, except that the tag-name fallback
applies not only when no rule yields a name but also when the chosen name
is 100 characters or longer. -/
theorem C9_field_name_priority (e : DomElement) :
    inferFieldName e
      = (match firstYieldedName e with
         | Option.some s => if 100 ≤ s.length then fallbackFieldName e else s
         | Option.none => fallbackFieldName e) := by
  have hobs := foldl_seqStep_obs (ruleAssignments e) Option.none rfl
  rw [← inferFieldNameRaw_eq_foldl] at hobs
  have hfy : (((ruleAssignments e).map Prod.snd).find? jsTruthy).join
      = firstYieldedName e := rfl
  rw [hfy] at hobs
  rcases hv : firstYieldedName e with _ | v
  · rw [hv] at hobs
    have hraw : jsTruthy (inferFieldNameRaw e) = false := by
      simpa [jsTruthy] using hobs.1
    unfold inferFieldName
    rcases hr : inferFieldNameRaw e with _ | s
    · rfl
    · rw [hr] at hraw
      have hs : s = "" := by simpa [jsTruthy] using hraw
      simp [hs]
  · rw [hv] at hobs
    have hfind : (fieldNameRules e).find? jsTruthy = Option.some (Option.some v) := by
      have hjoin : (((fieldNameRules e).find? jsTruthy)).join = Option.some v := hv
      exact Option.join_eq_some.mp hjoin
    have hvt : jsTruthy (Option.some v) = true := List.find?_some hfind
    have hraw : inferFieldNameRaw e = Option.some v := hobs.2 (by rw [hobs.1]; exact hvt)
    unfold inferFieldName
    rw [hraw]
    have hvne : ¬ v = "" := by simpa [jsTruthy] using hvt
    simp [hvne]

/-! ### Claim C10: step deletion reindexes orders (`src/app/server.ts`) -/

/-- The `position` object of `TutorialStep` from `src/types/studio.ts`. -/
structure StepPosition where
  x : Rat
  y : Rat
  width : Rat
  height : Rat
deriving DecidableEq

/-- `StepTranslation` from `src/types/studio.ts`. -/
structure StepTranslation where
  fieldName : String
  actionDescription : String
  instruction : Option String := Option.none
  hint : Option String := Option.none
deriving DecidableEq

/-- `TutorialStep` from `src/types/studio.ts`. -/
structure TutorialStep where
  id : String
  order : Nat
  timestamp : Nat
  duration : Nat
  elementInfo : ElementInfo
  position : StepPosition
  screenshotFile : Option String := Option.none
  highlightType : HighlightType
  translations : List (String × StepTranslation)
deriving DecidableEq

/-- The mutation `s.order = i`. -/
def setOrder (s : TutorialStep) (o : Nat) : TutorialStep :=
  ⟨s.id, o, s.timestamp, s.duration, s.elementInfo, s.position,
   s.screenshotFile, s.highlightType, s.translations⟩

/-- The reorder loop of the delete-step route:
`tutorial.steps.forEach((s, i) => s.order = i)`. -/
def reindexSteps (steps : List TutorialStep) : List TutorialStep :=
  steps.enum.map (fun p => setOrder p.2 p.1)

/-- The delete-step route of `src/app/server.ts`: find the step by id
(404 — modelled as `none` — when absent), `splice` it out, then reassign
every remaining step's `order` to its index. -/
def deleteStep (steps : List TutorialStep) (stepId : String) :
    Option (List TutorialStep) :=
  match steps.findIdx? (fun s => s.id == stepId) with
  | Option.some i => Option.some (reindexSteps (steps.eraseIdx i))
  | Option.none => Option.none

/-- Claim C10: when the delete-step operation succeeds, the surviving steps
are the original list with the found step spliced out, in their original
relative order (all fields except `order` untouched), and their `order`
fields are reassigned to the dense zero-based sequence `0, 1, ..., n-1` —
so dense ordering is maintained by deletion on every input, dense or not. -/
theorem C10_delete_step_reindexes (steps : List TutorialStep) (stepId : String)
    (res : List TutorialStep) (h : deleteStep steps stepId = Option.some res) :
    res.map (fun s => s.order) = List.range res.length
    ∧ ∃ i, steps.findIdx? (fun s => s.id == stepId) = Option.some i
        ∧ res.map (fun s => setOrder s 0) = (steps.eraseIdx i).map (fun s => setOrder s 0) := by
  rcases hidx : steps.findIdx? (fun s => s.id == stepId) with _ | i
  · rw [deleteStep, hidx] at h
    cases h
  · rw [deleteStep, hidx] at h
    have hres : res = reindexSteps (steps.eraseIdx i) := (Option.some.injEq _ _).mp h.symm
    subst hres
    refine ⟨?_, i, hidx, ?_⟩
    · have h1 : (reindexSteps (steps.eraseIdx i)).map (fun s => s.order)
          = (steps.eraseIdx i).enum.map (fun p => p.1) := by
        rw [reindexSteps, List.map_map]
        rfl
      have h2 : (reindexSteps (steps.eraseIdx i)).length = (steps.eraseIdx i).length := by
        rw [reindexSteps, List.length_map, List.enum_length]
      rw [h1, h2, List.enum_map_fst]
    · have h3 : (reindexSteps (steps.eraseIdx i)).map (fun s => setOrder s 0)
          = (steps.eraseIdx i).enum.map (fun p => setOrder p.2 0) := by
        rw [reindexSteps, List.map_map]
        rfl
      rw [h3]
      have h4 : (steps.eraseIdx i).enum.map (fun p => setOrder p.2 0)
          = ((steps.eraseIdx i).enum.map (fun p => p.2)).map (fun s => setOrder s 0) := by
        rw [List.map_map]
        rfl
      rw [h4, List.enum_map_snd]

/-- A three-step tutorial (orders 0, 1, 2) for the witness. -/
def c10Info : ElementInfo := ⟨"button", "Save", Option.none, "click", Option.none, "#save"⟩

def c10Steps : List TutorialStep :=
  [⟨"sa", 0, 0, 5, c10Info, ⟨10, 10, 5, 5⟩, Option.none, HighlightType.circle, []⟩,
   ⟨"sb", 1, 5, 5, c10Info, ⟨20, 20, 5, 5⟩, Option.none, HighlightType.circle, []⟩,
   ⟨"sc", 2, 10, 5, c10Info, ⟨30, 30, 5, 5⟩, Option.none, HighlightType.circle, []⟩]

theorem C10_delete_step_reindexes_witness :
    deleteStep c10Steps "sb"
      = Option.some
        [⟨"sa", 0, 0, 5, c10Info, ⟨10, 10, 5, 5⟩, Option.none, HighlightType.circle, []⟩,
         ⟨"sc", 1, 10, 5, c10Info, ⟨30, 30, 5, 5⟩, Option.none, HighlightType.circle, []⟩]
    ∧ ((deleteStep c10Steps "sb").getD []).map (fun s => s.order)
        = List.range ((deleteStep c10Steps "sb").getD []).length :=
  ⟨by decide,
   by
    have h := C10_delete_step_reindexes c10Steps "sb"
      ((deleteStep c10Steps "sb").getD []) (by decide)
    exact h.1⟩

end ScreenR
